import Mathlib

/-!
Shallow embedding of the MP3 segment-concatenation pipeline of
`src/audio/dataTransformer.ts` (class `AudioDataTransformer`), together with
theorems settling the specification claims about it.

Byte buffers (`Buffer` in Node.js) are modelled as `List Nat`, each element a
byte value; loops are embedded as fuel-indexed structural recursions, with the
fuel chosen large enough (and proved irrelevant beyond the loop's variant).
-/

namespace AudioDataTransformer

/-! ## Definitions: the embedded program -/

/-- Constant `MAX_BUFFER_SIZE = 50 * 1024 * 1024` (50 MiB). -/
def MAX_BUFFER_SIZE : Nat := 50 * 1024 * 1024

/-- Constant `MAX_ID3V2_TAG_SIZE = 10 * 1024 * 1024` (10 MiB). -/
def MAX_ID3V2_TAG_SIZE : Nat := 10 * 1024 * 1024

/-- Constant `PROCESSING_CHUNK_SIZE = 1024 * 1024` (1 MiB). -/
def PROCESSING_CHUNK_SIZE : Nat := 1024 * 1024

/-- Byte buffers are lists of byte values. -/
abbrev Buf := List Nat

/-- Model of `buffer.readUInt32BE(offset)`: big-endian 32-bit read. -/
def readUInt32BE (b : Buf) (o : Nat) : Nat :=
  b.getD o 0 * 2 ^ 24 + b.getD (o + 1) 0 * 2 ^ 16 + b.getD (o + 2) 0 * 2 ^ 8 +
    b.getD (o + 3) 0

/-- Field `(header >> 19) & 0x3` of the frame header. -/
def versionOf (h : Nat) : Nat := (h >>> 19) &&& 0x3

/-- Field `(header >> 17) & 0x3` of the frame header. -/
def layerOf (h : Nat) : Nat := (h >>> 17) &&& 0x3

/-- Field `(header >> 12) & 0xf` of the frame header. -/
def bitrateIndexOf (h : Nat) : Nat := (h >>> 12) &&& 0xf

/-- Field `(header >> 10) & 0x3` of the frame header. -/
def samplingRateIndexOf (h : Nat) : Nat := (h >>> 10) &&& 0x3

/-- Field `(header >> 9) & 0x1` of the frame header. -/
def paddingOf (h : Nat) : Nat := (h >>> 9) &&& 0x1

/-- Bitrate table (kbps), simplified for MPEG1 Layer III. -/
def bitrateTable : List Nat :=
  [0, 32, 40, 48, 56, 64, 80, 96, 112, 128, 160, 192, 224, 256, 320, 0]

/-- Sample rate table (Hz), simplified for MPEG1. -/
def sampleRateTable : List Nat := [44100, 48000, 32000, 0]

/-- Model of `getMp3FrameLength(buffer, offset)`: frame length from the 4-byte header,
or 0 when invalid/unsupported (faithful to the source's order of checks). -/
def getMp3FrameLength (b : Buf) (offset : Nat) : Nat :=
  if b.length < offset + 4 then 0
  else
    let header := readUInt32BE b offset
    if bitrateIndexOf header = 0 ∨ bitrateIndexOf header = 15 ∨
        samplingRateIndexOf header = 3 then 0
    else
      let bitrate := bitrateTable.getD (bitrateIndexOf header) 0 * 1000
      let sampleRate := sampleRateTable.getD (samplingRateIndexOf header) 0
      if versionOf header = 3 ∧ layerOf header = 1 then
        144 * bitrate / sampleRate + paddingOf header
      else 0

/-- Loop body of `findMp3FrameSync`: scan `i` upward while `i < length - 1`,
returning the first `i` with `buffer[i] = 0xFF` and `buffer[i+1] & 0xE0 = 0xE0`. -/
def findSyncAux (b : Buf) : Nat → Nat → Option Nat
  | 0, _ => none
  | fuel + 1, i =>
    if i + 1 < b.length then
      if b.getD i 0 = 0xff ∧ b.getD (i + 1) 0 &&& 0xe0 = 0xe0 then some i
      else findSyncAux b fuel (i + 1)
    else none

/-- Model of `findMp3FrameSync(buffer, startOffset)`: first frame-sync position at or
after `startOffset`, or `none` (the source returns -1). -/
def findMp3FrameSync (b : Buf) (startOffset : Nat) : Option Nat :=
  findSyncAux b (b.length - startOffset) startOffset

/-- The `while` loop of `findCompleteFrames`, returning the final
`lastFrameEnd`.  `fuel` bounds the number of iterations; any fuel exceeding
`buffer.length - offset` gives the loop's true result. -/
def framesLoop (b : Buf) : Nat → Nat → Nat → Nat
  | 0, _, lastFrameEnd => lastFrameEnd
  | fuel + 1, offset, lastFrameEnd =>
    if offset < b.length then
      match findMp3FrameSync b offset with
      | none => lastFrameEnd
      | some syncOffset =>
        let frameLength := getMp3FrameLength b syncOffset
        if frameLength = 0 then framesLoop b fuel (syncOffset + 1) lastFrameEnd
        else if syncOffset + frameLength ≤ b.length then
          framesLoop b fuel (syncOffset + frameLength) (syncOffset + frameLength)
        else lastFrameEnd
    else lastFrameEnd

/-- Model of `findCompleteFrames(buffer)`: `frames = buffer.subarray(0, lastFrameEnd)`,
`remainder = buffer.subarray(lastFrameEnd)`. -/
def findCompleteFrames (b : Buf) : Buf × Buf :=
  let lastFrameEnd := framesLoop b (b.length + 1) 0 0
  (b.take lastFrameEnd, b.drop lastFrameEnd)

/-- A complete, recognizable 96-byte MPEG1 Layer III frame
(32 kbps, 48000 Hz, no padding): header `FF FB 14 00` plus 92 zero bytes. -/
def frame96 : Buf := 0xff :: 0xfb :: 0x14 :: 0x00 :: List.replicate 92 0

/-- Result record of `extractAudioParams`. -/
structure AudioParams where
  version : Nat
  layer : Nat
  bitrate : Nat
  sampleRate : Nat
  valid : Bool
deriving DecidableEq, Repr

/-- The all-zero, invalid parameter record the source falls back to. -/
def invalidParams : AudioParams := ⟨0, 0, 0, 0, false⟩

/-- Model of `extractAudioParams(buffer, offset)`: decode version/layer/bitrate/sample
rate from the 4-byte header; `valid = false` when fewer than 4 bytes are
readable or the bitrate/sample-rate index is invalid. -/
def extractAudioParams (b : Buf) (offset : Nat) : AudioParams :=
  if b.length < offset + 4 then invalidParams
  else
    let header := readUInt32BE b offset
    if bitrateIndexOf header = 0 ∨ bitrateIndexOf header = 15 ∨
        samplingRateIndexOf header = 3 then invalidParams
    else
      { version := versionOf header
        layer := layerOf header
        bitrate := bitrateTable.getD (bitrateIndexOf header) 0
        sampleRate := sampleRateTable.getD (samplingRateIndexOf header) 0
        valid := true }

/-- State of one stripper transform: the `headerStripped` flag (initially
`isFirst`) and the accumulated `buffer`. -/
structure StripState where
  headerStripped : Bool
  buffer : Buf
deriving DecidableEq, Repr

/-- Initial state: `let headerStripped = isFirst; let buffer = Buffer.alloc(0)`. -/
def initState (isFirst : Bool) : StripState := ⟨isFirst, []⟩

/-- The fatal errors a stripper transform can raise. -/
inductive StripError where
  | bufferOverflow
  | tagSizeTooLarge
deriving DecidableEq, Repr

/-- Result of one `transform(chunk)` call: emitted bytes plus successor state,
or a fatal error. -/
inductive StepResult where
  | ok (emitted : Buf) (state : StripState)
  | err (e : StripError)
deriving DecidableEq, Repr

/-- Synchsafe ID3v2 size:
`((b[6]&0x7F)<<21) | ((b[7]&0x7F)<<14) | ((b[8]&0x7F)<<7) | (b[9]&0x7F)`. -/
def synchsafeSize (b : Buf) : Nat :=
  ((b.getD 6 0 &&& 0x7f) <<< 21) ||| ((b.getD 7 0 &&& 0x7f) <<< 14) |||
    ((b.getD 8 0 &&& 0x7f) <<< 7) ||| (b.getD 9 0 &&& 0x7f)

/-- Total tag size: `size + 10` for the ID3v2 header itself. -/
def synchsafeTotal (b : Buf) : Nat := synchsafeSize b + 10

/-- The `if (headerStripped)` streaming part of the transform body: split off
complete frames, with the bounded best-effort slice for oversized frameless
buffers. -/
def streamingPhase (buffer : Buf) : StepResult :=
  if PROCESSING_CHUNK_SIZE ≤ buffer.length then
    let fr := findCompleteFrames buffer
    if 0 < fr.1.length then .ok fr.1 ⟨true, fr.2⟩
    else if PROCESSING_CHUNK_SIZE * 2 < buffer.length then
      .ok (buffer.take PROCESSING_CHUNK_SIZE) ⟨true, buffer.drop PROCESSING_CHUNK_SIZE⟩
    else .ok [] ⟨true, buffer⟩
  else
    let fr := findCompleteFrames buffer
    if 0 < fr.1.length then .ok fr.1 ⟨true, fr.2⟩
    else .ok [] ⟨true, buffer⟩

/-- One `transform(chunk, _, callback)` call of `createStripperTransform`. -/
def transformStep (s : StripState) (chunk : Buf) : StepResult :=
  let buffer := s.buffer ++ chunk
  if MAX_BUFFER_SIZE < buffer.length then .err .bufferOverflow
  else if s.headerStripped = false ∧ 10 ≤ buffer.length then
    if buffer.getD 0 0 = 0x49 ∧ buffer.getD 1 0 = 0x44 ∧ buffer.getD 2 0 = 0x33 then
      if MAX_ID3V2_TAG_SIZE < synchsafeTotal buffer then .err .tagSizeTooLarge
      else if synchsafeTotal buffer ≤ buffer.length then
        streamingPhase (buffer.drop (synchsafeTotal buffer))
      else .ok [] ⟨false, buffer⟩
    else streamingPhase buffer
  else if s.headerStripped then streamingPhase buffer
  else .ok [] ⟨false, buffer⟩

/-- The trailing-`TAG` test of the flush handler: at least 128 buffered bytes
and `T A G` at `length - 128`. -/
def hasTrailingTag (b : Buf) : Prop :=
  128 ≤ b.length ∧ b.getD (b.length - 128) 0 = 0x54 ∧
    b.getD (b.length - 128 + 1) 0 = 0x41 ∧ b.getD (b.length - 128 + 2) 0 = 0x47

instance (b : Buf) : Decidable (hasTrailingTag b) := by
  unfold hasTrailingTag; infer_instance

/-- The `flush(callback)` handler: bytes emitted at end of input. -/
def flushEmit (isLast : Bool) (s : StripState) : Buf :=
  if isLast then s.buffer
  else
    let buffer := if hasTrailingTag s.buffer then s.buffer.take (s.buffer.length - 128)
      else s.buffer
    let fr := findCompleteFrames buffer
    if 0 < fr.1.length then fr.1 else buffer

/-- Feed a list of chunks through successive `transform` calls, collecting all
emitted bytes (an error aborts the run, as `pipeline` does). -/
def runChunks (s : StripState) : List Buf → Except StripError (Buf × StripState)
  | [] => .ok ([], s)
  | c :: cs =>
    match transformStep s c with
    | .err e => .error e
    | .ok em s1 =>
      match runChunks s1 cs with
      | .error e => .error e
      | .ok (rest, s2) => .ok (em ++ rest, s2)

/-- A whole run of one stripper transform: all `transform` calls, then
`flush`; the result is the concatenation of every emitted byte. -/
def runStripper (isFirst isLast : Bool) (chunks : List Buf) :
    Except StripError Buf :=
  match runChunks (initState isFirst) chunks with
  | .error e => .error e
  | .ok (em, s) => .ok (em ++ flushEmit isLast s)

/-- The per-file loop of `concatenate`: file `i` is piped through a stripper
with `isFirst = (i = 0)`, `isLast = (i = n-1)`, into one shared sink. -/
def concatAux : Bool → List (List Buf) → Except StripError Buf
  | _, [] => .ok []
  | isFirst, f :: fs =>
    match runStripper isFirst fs.isEmpty f with
    | .error e => .error e
    | .ok out =>
      match concatAux false fs with
      | .error e => .error e
      | .ok rest => .ok (out ++ rest)

/-- Byte-level model of `concatenate`: each input file is given as its list of
read chunks; the result is the byte content of the output sink. -/
def concatModel (files : List (List Buf)) : Except StripError Buf :=
  concatAux true files

/-- The warnings `validateAudioCompatibility` can push. -/
inductive Warning where
  | readFailure (file : Nat)
  | noFrame (file : Nat)
  | sampleRateMismatch (i : Nat) (first current : Nat)
  | bitrateDiff (i : Nat) (first current : Nat)
  | versionLayerMismatch (i : Nat)
deriving DecidableEq, Repr

/-- Parameters recorded for one input file: locate the first sync, then
`extractAudioParams`; an unreadable file or missing sync records the invalid
record. -/
def fileParamsOf : Option Buf → AudioParams
  | none => invalidParams
  | some buf =>
    match findMp3FrameSync buf 0 with
    | none => invalidParams
    | some syncOffset => extractAudioParams buf syncOffset

/-- The warnings pushed during the per-file read loop. -/
def collectWarnings (inputs : List (Option Buf)) : List Warning :=
  (List.range inputs.length).flatMap fun k =>
    match inputs.getD k none with
    | none => [.readFailure k]
    | some buf =>
      match findMp3FrameSync buf 0 with
      | none => [.noFrame k]
      | some _ => []

/-- One iteration of the consistency-check loop: the warnings pushed when
`validParams[j+1]` is compared against `validParams[0]`. -/
def mismatchBlock (validParams : List AudioParams) (j : Nat) : List Warning :=
  let firstParams := validParams.getD 0 invalidParams
  let currentParams := validParams.getD (j + 1) invalidParams
  (if currentParams.sampleRate ≠ firstParams.sampleRate then
    [.sampleRateMismatch (j + 1) firstParams.sampleRate currentParams.sampleRate]
  else []) ++
  (if 64 < ((currentParams.bitrate : Int) - (firstParams.bitrate : Int)).natAbs then
    [.bitrateDiff (j + 1) firstParams.bitrate currentParams.bitrate]
  else []) ++
  (if currentParams.version ≠ firstParams.version ∨
      currentParams.layer ≠ firstParams.layer then
    [.versionLayerMismatch (j + 1)]
  else [])

/-- The consistency-check loop over the valid parameter records: file `i` of
`validParams` (for `i ≥ 1`) is compared against `validParams[0]`. -/
def mismatchWarnings (validParams : List AudioParams) : List Warning :=
  if 1 < validParams.length then
    (List.range (validParams.length - 1)).flatMap (mismatchBlock validParams)
  else []

/-- Model of `const validParams = fileParams.filter(p => p.valid)`. -/
def validRecords (inputs : List (Option Buf)) : List AudioParams :=
  (inputs.map fileParamsOf).filter fun p => p.valid

/-- Model of `validateAudioCompatibility(inputFiles)`: empty for fewer than two inputs;
otherwise the read-loop warnings followed by the mismatch warnings over the
valid parameter records. -/
def validateAudioCompatibility (inputs : List (Option Buf)) : List Warning :=
  if inputs.length < 2 then []
  else collectWarnings inputs ++ mismatchWarnings (validRecords inputs)

/-- Definition following the words of claim C5: 0 when fewer than 4 bytes are
readable at the offset, when the bitrate index is 0 or 15, when the
sample-rate index is 3, or when the header is not MPEG-1 Layer III;
otherwise `floor(144 * bitrateKbps * 1000 / sampleRateHz) + padding` with the
MPEG-1 Layer III bitrate table and sample-rate table {44100, 48000, 32000}. -/
def frameLengthSpec (b : Buf) (offset : Nat) : Nat :=
  let header := readUInt32BE b offset
  if b.length < offset + 4 ∨ bitrateIndexOf header = 0 ∨ bitrateIndexOf header = 15 ∨
      samplingRateIndexOf header = 3 ∨ ¬(versionOf header = 3 ∧ layerOf header = 1) then 0
  else
    let bitrateKbps := bitrateTable.getD (bitrateIndexOf header) 0
    let sampleRateHz := sampleRateTable.getD (samplingRateIndexOf header) 0
    144 * (bitrateKbps * 1000) / sampleRateHz + paddingOf header

/-- A header that is recognizable by `extractAudioParams` (valid bitrate and
sample-rate indexes) but is not MPEG-1 Layer III (version bits = 2), so
`getMp3FrameLength` rejects it. -/
def badHeader : Buf := [0xff, 0xf3, 0x14, 0x00]

/-- Instrumented copy of the `findCompleteFrames` loop, recording the
`(syncOffset, frameLength)` span of every complete recognized frame the scan
consumes, in order. -/
def spansLoop (b : Buf) : Nat → Nat → List (Nat × Nat)
  | 0, _ => []
  | fuel + 1, offset =>
    if offset < b.length then
      match findMp3FrameSync b offset with
      | none => []
      | some syncOffset =>
        let frameLength := getMp3FrameLength b syncOffset
        if frameLength = 0 then spansLoop b fuel (syncOffset + 1)
        else if syncOffset + frameLength ≤ b.length then
          (syncOffset, frameLength) :: spansLoop b fuel (syncOffset + frameLength)
        else []
    else []

/-- The recognized complete-frame spans of a whole buffer. -/
def frameSpans (b : Buf) : List (Nat × Nat) := spansLoop b (b.length + 1) 0

/-- End position of the last span, or `e` when there is none (the running
`lastFrameEnd`). -/
def spansEnd (e : Nat) : List (Nat × Nat) → Nat
  | [] => e
  | p :: ps => spansEnd (p.1 + p.2) ps

/-- Definition following the words of claim C1: repeatedly apply sync search
and frame-length decoding starting from the previous frame's end, stopping at
the first incomplete or unrecognized frame, and collect the complete
recognized frames found. -/
def claimFramesLoop (b : Buf) : Nat → Nat → List Buf
  | 0, _ => []
  | fuel + 1, offset =>
    match findMp3FrameSync b offset with
    | none => []
    | some syncOffset =>
      let frameLength := getMp3FrameLength b syncOffset
      if frameLength = 0 then []
      else if syncOffset + frameLength ≤ b.length then
        (b.drop syncOffset).take frameLength ::
          claimFramesLoop b fuel (syncOffset + frameLength)
      else []

/-- The recognized frames per the claim's own description. -/
def claimFrames (b : Buf) : List Buf := claimFramesLoop b (b.length + 1) 0

/-- A buffer with one junk byte before a complete recognized frame. -/
def junkFrame : Buf := 0x00 :: frame96

/-- A single chunk one byte larger than `MAX_BUFFER_SIZE`. -/
def bigChunk : Buf := List.replicate (MAX_BUFFER_SIZE + 1) 0

instance : DecidableEq (Except StripError Buf) := fun a b =>
  match a, b with
  | .ok x, .ok y => decidable_of_iff (x = y) (by simp)
  | .error x, .error y => decidable_of_iff (x = y) (by simp)
  | .ok _, .error _ => isFalse (by simp)
  | .error _, .ok _ => isFalse (by simp)

/-- A file that begins with a complete 20-byte ID3v2 tag (magic `ID3`,
synchsafe size 10, ten zero payload bytes) followed by one complete frame. -/
def id3File : Buf :=
  [0x49, 0x44, 0x33, 0, 0, 0, 0, 0, 0, 0x0a] ++ List.replicate 10 0 ++ frame96

/-- A chunk whose ID3v2 header declares a tag (1000 bytes) longer than the
chunk, so the transform keeps waiting; a complete frame and one junk byte
follow the 10 header bytes. -/
def c3chunk : Buf :=
  [0x49, 0x44, 0x33, 0, 0, 0, 0, 0, 0x07, 0x68] ++ frame96 ++ [0x11]

/-- A buffer holding a complete frame, one junk byte, then an ID3v1 `TAG`
block (128 bytes). -/
def c4buf : Buf :=
  frame96 ++ [0x11] ++ (0x54 :: 0x41 :: 0x47 :: List.replicate 125 0)

/-- A buffer that is exactly one complete frame followed by a `TAG` block. -/
def c4wbuf : Buf := frame96 ++ (0x54 :: 0x41 :: 0x47 :: List.replicate 125 0)

/-- Two readable one-header files: 32 kbps MPEG1 Layer III at 48000 Hz and at
32000 Hz. -/
def c7inputs : List (Option Buf) :=
  [some [0xff, 0xfb, 0x14, 0x00], some [0xff, 0xfb, 0x18, 0x00]]

/-! ## Theorems -/

example : getMp3FrameLength frame96 0 = 96 := by decide

example : findMp3FrameSync frame96 0 = some 0 := by decide

example : findCompleteFrames frame96 = (frame96, []) := by decide

example : findCompleteFrames (0x00 :: frame96) = (0x00 :: frame96, []) := by decide

theorem findSyncAux_le {b : Buf} :
    ∀ {fuel i s : Nat}, findSyncAux b fuel i = some s → i ≤ s ∧ s + 1 < b.length := by
  intro fuel
  induction fuel with
  | zero => intro i s h; simp [findSyncAux] at h
  | succ n ih =>
    intro i s h
    unfold findSyncAux at h
    by_cases hb : i + 1 < b.length
    · rw [if_pos hb] at h
      by_cases hm : b.getD i 0 = 0xff ∧ b.getD (i + 1) 0 &&& 0xe0 = 0xe0
      · rw [if_pos hm] at h
        cases h
        exact ⟨Nat.le_refl _, hb⟩
      · rw [if_neg hm] at h
        obtain ⟨h1, h2⟩ := ih h
        exact ⟨Nat.le_trans (Nat.le_succ i) h1, h2⟩
    · rw [if_neg hb] at h
      cases h

theorem findMp3FrameSync_le {b : Buf} {o s : Nat}
    (h : findMp3FrameSync b o = some s) : o ≤ s ∧ s + 1 < b.length :=
  findSyncAux_le h

/-- Table fact: every valid bitrate/sample-rate index pair yields a frame
length of at least 96 bytes. -/
theorem table_min :
    ∀ bi < 16, ∀ si < 4, bi ≠ 0 ∧ bi ≠ 15 ∧ si ≠ 3 →
      96 ≤ 144 * (bitrateTable.getD bi 0 * 1000) / sampleRateTable.getD si 0 := by
  decide

theorem getMp3FrameLength_min {b : Buf} {o : Nat}
    (h : getMp3FrameLength b o ≠ 0) : 96 ≤ getMp3FrameLength b o := by
  unfold getMp3FrameLength at *
  by_cases h1 : b.length < o + 4
  · rw [if_pos h1] at h; exact absurd rfl h
  · rw [if_neg h1] at h ⊢
    set header := readUInt32BE b o with hh
    by_cases h2 : bitrateIndexOf header = 0 ∨ bitrateIndexOf header = 15 ∨
        samplingRateIndexOf header = 3
    · rw [if_pos h2] at h; exact absurd rfl h
    · rw [if_neg h2] at h ⊢
      by_cases h3 : versionOf header = 3 ∧ layerOf header = 1
      · rw [if_pos h3]
        push_neg at h2
        have hbi : bitrateIndexOf header < 16 :=
          Nat.lt_succ_of_le (Nat.and_le_right)
        have hsi : samplingRateIndexOf header < 4 :=
          Nat.lt_succ_of_le (Nat.and_le_right)
        have := table_min _ hbi _ hsi ⟨h2.1, h2.2.1, h2.2.2⟩
        exact Nat.le_trans this (Nat.le_add_right _ _)
      · rw [if_neg h3] at h; exact absurd rfl h

theorem framesLoop_le {b : Buf} :
    ∀ {fuel offset lastEnd : Nat}, lastEnd ≤ b.length →
      framesLoop b fuel offset lastEnd ≤ b.length := by
  intro fuel
  induction fuel with
  | zero => intro offset lastEnd h; exact h
  | succ n ih =>
    intro offset lastEnd h
    unfold framesLoop
    by_cases ho : offset < b.length
    · rw [if_pos ho]
      cases hs : findMp3FrameSync b offset with
      | none => exact h
      | some syncOffset =>
        simp only []
        by_cases hf : getMp3FrameLength b syncOffset = 0
        · rw [if_pos hf]; exact ih h
        · rw [if_neg hf]
          by_cases hc : syncOffset + getMp3FrameLength b syncOffset ≤ b.length
          · rw [if_pos hc]; exact ih hc
          · rw [if_neg hc]; exact h
    · rw [if_neg ho]; exact h

/-- Beyond the loop variant `b.length - offset`, the fuel given to
`framesLoop` is irrelevant. -/
theorem framesLoop_fuel {b : Buf} :
    ∀ (n : Nat), ∀ {f1 f2 offset lastEnd : Nat},
      b.length - offset ≤ n → n < f1 → n < f2 →
      framesLoop b f1 offset lastEnd = framesLoop b f2 offset lastEnd := by
  intro n
  induction n with
  | zero =>
    intro f1 f2 offset lastEnd hn h1 h2
    obtain ⟨a, rfl⟩ : ∃ k, f1 = k + 1 := ⟨f1 - 1, by omega⟩
    obtain ⟨c, rfl⟩ : ∃ k, f2 = k + 1 := ⟨f2 - 1, by omega⟩
    have ho : ¬ offset < b.length := by omega
    unfold framesLoop
    rw [if_neg ho, if_neg ho]
  | succ n ih =>
    intro f1 f2 offset lastEnd hn h1 h2
    obtain ⟨a, rfl⟩ : ∃ k, f1 = k + 1 := ⟨f1 - 1, by omega⟩
    obtain ⟨c, rfl⟩ : ∃ k, f2 = k + 1 := ⟨f2 - 1, by omega⟩
    unfold framesLoop
    by_cases ho : offset < b.length
    · rw [if_pos ho, if_pos ho]
      cases hs : findMp3FrameSync b offset with
      | none => rfl
      | some syncOffset =>
        obtain ⟨hos, hsb⟩ := findMp3FrameSync_le hs
        simp only []
        by_cases hf : getMp3FrameLength b syncOffset = 0
        · rw [if_pos hf, if_pos hf]
          exact ih (by omega) (by omega) (by omega)
        · rw [if_neg hf, if_neg hf]
          have h96 : 96 ≤ getMp3FrameLength b syncOffset := getMp3FrameLength_min hf
          by_cases hc : syncOffset + getMp3FrameLength b syncOffset ≤ b.length
          · rw [if_pos hc, if_pos hc]
            exact ih (by omega) (by omega) (by omega)
          · rw [if_neg hc, if_neg hc]
    · rw [if_neg ho, if_neg ho]

/-- C8: `findCompleteFrames` splits its input at a single cut point:
`frames` is a prefix (`take n`), `remainder` the complementary suffix
(`drop n`), and their concatenation restores the input byte for byte. -/
theorem claim_c8_single_cut (b : Buf) :
    ∃ n, n ≤ b.length ∧ (findCompleteFrames b).1 = b.take n ∧
      (findCompleteFrames b).2 = b.drop n ∧
      (findCompleteFrames b).1 ++ (findCompleteFrames b).2 = b := by
  refine ⟨framesLoop b (b.length + 1) 0 0, framesLoop_le (Nat.zero_le _), rfl, rfl, ?_⟩
  exact List.take_append_drop _ b

/-- C9: `findCompleteFrames` terminates on every finite buffer: every nonzero
result of `getMp3FrameLength` is at least 96, and the scan loop's result does
not depend on its fuel once the fuel exceeds `buffer.length - offset`
(each iteration strictly increases the scan offset). -/
theorem claim_c9_termination :
    (∀ (b : Buf) (o : Nat), getMp3FrameLength b o ≠ 0 → 96 ≤ getMp3FrameLength b o) ∧
    (∀ (b : Buf) (f1 f2 offset lastEnd : Nat),
      b.length - offset < f1 → b.length - offset < f2 →
      framesLoop b f1 offset lastEnd = framesLoop b f2 offset lastEnd) :=
  ⟨fun _ _ h => getMp3FrameLength_min h,
   fun b _ _ offset _ h1 h2 =>
     framesLoop_fuel (b.length - offset) (Nat.le_refl _) h1 h2⟩

/-- Witness for C9 at a concrete frame and concrete fuels. -/
theorem claim_c9_termination_w :
    96 ≤ getMp3FrameLength frame96 0 ∧
      framesLoop frame96 200 0 0 = framesLoop frame96 300 0 0 :=
  ⟨claim_c9_termination.1 frame96 0 (by decide),
   claim_c9_termination.2 frame96 200 300 0 0 (by decide) (by decide)⟩

/-- C5: `getMp3FrameLength` agrees everywhere with the claim's description
`frameLengthSpec`. -/
theorem claim_c5_frame_length (b : Buf) (offset : Nat) :
    getMp3FrameLength b offset = frameLengthSpec b offset := by
  unfold getMp3FrameLength frameLengthSpec
  by_cases h1 : b.length < offset + 4
  · rw [if_pos h1, if_pos (Or.inl h1)]
  · rw [if_neg h1]
    by_cases h2 : bitrateIndexOf (readUInt32BE b offset) = 0 ∨
        bitrateIndexOf (readUInt32BE b offset) = 15 ∨
        samplingRateIndexOf (readUInt32BE b offset) = 3
    · rw [if_pos h2, if_pos (by tauto)]
    · rw [if_neg h2]
      by_cases h3 : versionOf (readUInt32BE b offset) = 3 ∧
          layerOf (readUInt32BE b offset) = 1
      · rw [if_pos h3, if_neg (by tauto)]
      · rw [if_neg h3, if_pos (by tauto)]

/-- C10: `extractAudioParams` marks a header valid exactly when 4 bytes are
readable and the bitrate/sample-rate indexes are in range, ignoring the
version and layer bits; hence a header can be valid for the validator while
`getMp3FrameLength` returns 0 for it (witnessed by `badHeader`). -/
theorem claim_c10_extract_valid :
    (∀ (b : Buf) (o : Nat), (extractAudioParams b o).valid = true ↔
      (o + 4 ≤ b.length ∧ bitrateIndexOf (readUInt32BE b o) ≠ 0 ∧
        bitrateIndexOf (readUInt32BE b o) ≠ 15 ∧
        samplingRateIndexOf (readUInt32BE b o) ≠ 3)) ∧
    (extractAudioParams badHeader 0).valid = true ∧
      getMp3FrameLength badHeader 0 = 0 := by
  refine ⟨fun b o => ?_, by decide, by decide⟩
  unfold extractAudioParams invalidParams
  by_cases h1 : b.length < o + 4
  · rw [if_pos h1]
    simp only [Bool.false_eq_true, false_iff]
    intro hc
    omega
  · rw [if_neg h1]
    by_cases h2 : bitrateIndexOf (readUInt32BE b o) = 0 ∨
        bitrateIndexOf (readUInt32BE b o) = 15 ∨
        samplingRateIndexOf (readUInt32BE b o) = 3
    · rw [if_pos h2]
      simp only [Bool.false_eq_true, false_iff]
      tauto
    · rw [if_neg h2]
      simp only [true_iff]
      push_neg at h2
      exact ⟨by omega, h2.1, h2.2.1, h2.2.2⟩

theorem framesLoop_eq_spansEnd {b : Buf} :
    ∀ (fuel offset lastEnd : Nat),
      framesLoop b fuel offset lastEnd = spansEnd lastEnd (spansLoop b fuel offset) := by
  intro fuel
  induction fuel with
  | zero => intro offset lastEnd; rfl
  | succ n ih =>
    intro offset lastEnd
    unfold framesLoop spansLoop
    by_cases ho : offset < b.length
    · rw [if_pos ho, if_pos ho]
      cases hs : findMp3FrameSync b offset with
      | none => rfl
      | some syncOffset =>
        simp only []
        by_cases hf : getMp3FrameLength b syncOffset = 0
        · rw [if_pos hf, if_pos hf]; exact ih _ _
        · rw [if_neg hf, if_neg hf]
          by_cases hc : syncOffset + getMp3FrameLength b syncOffset ≤ b.length
          · rw [if_pos hc, if_pos hc]; exact ih _ _
          · rw [if_neg hc, if_neg hc]; rfl
    · rw [if_neg ho, if_neg ho]; rfl

theorem spansLoop_valid {b : Buf} :
    ∀ {fuel offset : Nat}, ∀ p ∈ spansLoop b fuel offset,
      getMp3FrameLength b p.1 = p.2 ∧ p.2 ≠ 0 ∧ p.1 + p.2 ≤ b.length ∧ offset ≤ p.1 := by
  intro fuel
  induction fuel with
  | zero => intro offset p hp; simp [spansLoop] at hp
  | succ n ih =>
    intro offset p hp
    unfold spansLoop at hp
    by_cases ho : offset < b.length
    · rw [if_pos ho] at hp
      cases hs : findMp3FrameSync b offset with
      | none => rw [hs] at hp; simp at hp
      | some syncOffset =>
        rw [hs] at hp
        simp only [] at hp
        obtain ⟨hos, -⟩ := findMp3FrameSync_le hs
        by_cases hf : getMp3FrameLength b syncOffset = 0
        · rw [if_pos hf] at hp
          obtain ⟨h1, h2, h3, h4⟩ := ih p hp
          exact ⟨h1, h2, h3, by omega⟩
        · rw [if_neg hf] at hp
          by_cases hc : syncOffset + getMp3FrameLength b syncOffset ≤ b.length
          · rw [if_pos hc] at hp
            rcases List.mem_cons.mp hp with rfl | hp
            · exact ⟨rfl, hf, hc, hos⟩
            · obtain ⟨h1, h2, h3, h4⟩ := ih p hp
              have h96 : 96 ≤ getMp3FrameLength b syncOffset := getMp3FrameLength_min hf
              exact ⟨h1, h2, h3, by omega⟩
          · rw [if_neg hc] at hp; simp at hp
    · rw [if_neg ho] at hp; simp at hp

theorem spansLoop_chain {b : Buf} :
    ∀ (fuel offset : Nat),
      List.Chain' (fun p q : Nat × Nat => p.1 + p.2 ≤ q.1) (spansLoop b fuel offset) := by
  intro fuel
  induction fuel with
  | zero => intro offset; simp [spansLoop]
  | succ n ih =>
    intro offset
    unfold spansLoop
    by_cases ho : offset < b.length
    · rw [if_pos ho]
      cases hs : findMp3FrameSync b offset with
      | none => simp
      | some syncOffset =>
        simp only []
        by_cases hf : getMp3FrameLength b syncOffset = 0
        · rw [if_pos hf]; exact ih _
        · rw [if_neg hf]
          by_cases hc : syncOffset + getMp3FrameLength b syncOffset ≤ b.length
          · rw [if_pos hc]
            refine List.chain'_cons'.mpr ⟨?_, ih _⟩
            intro q hq
            have hqm : q ∈ spansLoop b n (syncOffset + getMp3FrameLength b syncOffset) :=
              List.mem_of_mem_head? hq
            exact (spansLoop_valid q hqm).2.2.2
          · rw [if_neg hc]; simp
    · rw [if_neg ho]; simp

/-- Counterexample to C1 as stated: on `junkFrame`, the scan finds exactly one
recognized complete frame (`frame96`, 96 bytes), but `frames` is the 97-byte
prefix that also contains the junk byte — it is not the concatenation of the
recognized frames found, and its length is not the sum of recognized-frame
sizes. -/
theorem claim_c1_cex :
    claimFrames junkFrame = [frame96] ∧
      (findCompleteFrames junkFrame).1 ≠ (claimFrames junkFrame).flatten ∧
      (findCompleteFrames junkFrame).1.length = 97 := by
  refine ⟨by decide, by decide, by decide⟩

/-- C1 amended: `frames` is the prefix of the buffer that ends exactly at the
end of the last complete recognized frame of the scan (so it may also contain
non-frame bytes lying before or between recognized frames); every recorded
span decodes to its nonzero frame length and lies complete within the buffer;
successive spans start at or after the previous frame's end (an unrecognized
sync makes the scan advance one byte rather than stop). -/
theorem claim_c1_amended (b : Buf) :
    (findCompleteFrames b).1 = b.take (spansEnd 0 (frameSpans b)) ∧
      (∀ p ∈ frameSpans b,
        getMp3FrameLength b p.1 = p.2 ∧ p.2 ≠ 0 ∧ p.1 + p.2 ≤ b.length) ∧
      List.Chain' (fun p q : Nat × Nat => p.1 + p.2 ≤ q.1) (frameSpans b) := by
  refine ⟨?_, fun p hp => ?_, spansLoop_chain _ _⟩
  · show b.take (framesLoop b (b.length + 1) 0 0) = _
    rw [framesLoop_eq_spansEnd]
    rfl
  · obtain ⟨h1, h2, h3, -⟩ := spansLoop_valid p hp
    exact ⟨h1, h2, h3⟩

/-- Witness for C1 amended at `junkFrame`: the single recorded span `(1, 96)`
is recognized, nonzero and complete. -/
theorem claim_c1_amended_w :
    getMp3FrameLength junkFrame 1 = 96 ∧ (96 : Nat) ≠ 0 ∧ 1 + 96 ≤ junkFrame.length :=
  (claim_c1_amended junkFrame).2.1 (1, 96) (by decide)

/-- C6: whenever an incoming chunk makes the accumulated buffer exceed
`MAX_BUFFER_SIZE`, the transform fails with the overflow error and emits
nothing for that chunk (the error is raised before any emission). -/
theorem claim_c6_overflow (s : StripState) (chunk : Buf)
    (h : MAX_BUFFER_SIZE < (s.buffer ++ chunk).length) :
    transformStep s chunk = .err .bufferOverflow := by
  unfold transformStep
  rw [if_pos h]

/-- Witness for C6: a fresh transform fed `bigChunk` fails with overflow. -/
theorem claim_c6_overflow_w :
    transformStep (initState true) bigChunk = .err .bufferOverflow :=
  claim_c6_overflow (initState true) bigChunk
    (by simp only [initState, bigChunk, List.nil_append, List.length_replicate]; omega)

/-- Counterexample to C2 as stated: concatenating two inputs that both begin
with a valid ID3v2 tag (synchsafe size within the configured maximum)
succeeds, yet the output's first bytes are exactly the `ID3` magic — the
first segment's tag is not removed, because the first file's transform starts
with the header decision already resolved (`headerStripped = isFirst`). -/
theorem claim_c2_cex :
    concatModel [[id3File], [id3File]] = .ok (id3File ++ frame96) ∧
      id3File.take 3 = [0x49, 0x44, 0x33] ∧
      synchsafeTotal id3File ≤ MAX_ID3V2_TAG_SIZE ∧
      (id3File ++ frame96).take 3 = [0x49, 0x44, 0x33] := by
  exact ⟨by set_option maxRecDepth 40000 in decide, by decide, by decide, by decide⟩

/-- A transform whose header decision is resolved just streams its buffer. -/
theorem transformStep_resolved (b : Buf) (hmax : b.length ≤ MAX_BUFFER_SIZE) :
    transformStep ⟨true, []⟩ b = streamingPhase b := by
  simp [transformStep, Nat.not_lt.mpr hmax]

/-- A fresh non-first transform whose first chunk carries a complete,
size-acceptable ID3v2 tag drops exactly the tag and streams the rest. -/
theorem transformStep_await_strip (chunk : Buf) (hlen : 10 ≤ chunk.length)
    (hmagic : chunk.getD 0 0 = 0x49 ∧ chunk.getD 1 0 = 0x44 ∧ chunk.getD 2 0 = 0x33)
    (hsize : synchsafeTotal chunk ≤ MAX_ID3V2_TAG_SIZE)
    (hcomplete : synchsafeTotal chunk ≤ chunk.length)
    (hmax : chunk.length ≤ MAX_BUFFER_SIZE) :
    transformStep ⟨false, []⟩ chunk = streamingPhase (chunk.drop (synchsafeTotal chunk)) := by
  have h0 : chunk[0]?.getD 0 = 0x49 := by simpa using hmagic.1
  have h1 : chunk[1]?.getD 0 = 0x44 := by simpa using hmagic.2.1
  have h2 : chunk[2]?.getD 0 = 0x33 := by simpa using hmagic.2.2
  simp [transformStep, hlen, h0, h1, h2,
    Nat.not_lt.mpr hmax, Nat.not_lt.mpr hsize, hcomplete]

/-- C2 amended: the ID3v2 tag is removed from every segment after the first —
a fresh non-first transform, fed a chunk that begins with a complete ID3v2
tag whose declared size is within the maximum, behaves exactly like a
header-resolved transform fed the chunk with the tag bytes deleted.  (The
first segment's transform starts header-resolved, so its leading tag passes
through, as `claim_c2_cex` shows.) -/
theorem claim_c2_amended (chunk : Buf) (hlen : 10 ≤ chunk.length)
    (hmagic : chunk.getD 0 0 = 0x49 ∧ chunk.getD 1 0 = 0x44 ∧ chunk.getD 2 0 = 0x33)
    (hsize : synchsafeTotal chunk ≤ MAX_ID3V2_TAG_SIZE)
    (hcomplete : synchsafeTotal chunk ≤ chunk.length)
    (hmax : chunk.length ≤ MAX_BUFFER_SIZE) :
    transformStep (initState false) chunk =
      transformStep (initState true) (chunk.drop (synchsafeTotal chunk)) := by
  have hdrop : (chunk.drop (synchsafeTotal chunk)).length ≤ MAX_BUFFER_SIZE := by
    rw [List.length_drop]; exact le_trans (Nat.sub_le _ _) hmax
  exact (transformStep_await_strip chunk hlen hmagic hsize hcomplete hmax).trans
    (transformStep_resolved _ hdrop).symm

/-- Witness for C2 amended at `id3File`. -/
theorem claim_c2_amended_w :
    transformStep (initState false) id3File =
      transformStep (initState true) (id3File.drop (synchsafeTotal id3File)) :=
  claim_c2_amended id3File (by decide) (by decide) (by decide) (by decide) (by decide)

theorem findCompleteFrames_append (b : Buf) :
    (findCompleteFrames b).1 ++ (findCompleteFrames b).2 = b :=
  List.take_append_drop _ b

theorem findCompleteFrames_fst_sub (b : Buf) :
    List.Sublist (findCompleteFrames b).1 b :=
  List.take_sublist _ b

theorem findCompleteFrames_fst (b : Buf) :
    (findCompleteFrames b).1 = b.take (framesLoop b (b.length + 1) 0 0) := rfl

/-- In every non-error streaming step, emitted bytes followed by the retained
buffer reproduce the processed buffer exactly. -/
theorem streamingPhase_eq {buffer e : Buf} {s1 : StripState}
    (h : streamingPhase buffer = .ok e s1) : e ++ s1.buffer = buffer := by
  unfold streamingPhase at h
  by_cases hc : PROCESSING_CHUNK_SIZE ≤ buffer.length
  · rw [if_pos hc] at h
    by_cases hf : 0 < (findCompleteFrames buffer).1.length
    · rw [if_pos hf] at h
      injection h with h1 h2
      subst h1; subst h2
      simpa using findCompleteFrames_append buffer
    · rw [if_neg hf] at h
      by_cases h2 : PROCESSING_CHUNK_SIZE * 2 < buffer.length
      · rw [if_pos h2] at h
        injection h with ha hb
        subst ha; subst hb
        simp [List.take_append_drop]
      · rw [if_neg h2] at h
        injection h with ha hb
        subst ha; subst hb
        simp
  · rw [if_neg hc] at h
    by_cases hf : 0 < (findCompleteFrames buffer).1.length
    · rw [if_pos hf] at h
      injection h with h1 h2
      subst h1; subst h2
      simpa using findCompleteFrames_append buffer
    · rw [if_neg hf] at h
      injection h with ha hb
      subst ha; subst hb
      simp

/-- In every non-error transform step, emitted bytes followed by the retained
buffer form a sublist (subsequence) of the old buffer plus the chunk. -/
theorem transformStep_sub {s : StripState} {chunk e : Buf} {s1 : StripState}
    (h : transformStep s chunk = .ok e s1) :
    List.Sublist (e ++ s1.buffer) (s.buffer ++ chunk) := by
  unfold transformStep at h
  by_cases h1 : MAX_BUFFER_SIZE < (s.buffer ++ chunk).length
  · rw [if_pos h1] at h; cases h
  · rw [if_neg h1] at h
    by_cases h2 : s.headerStripped = false ∧ 10 ≤ (s.buffer ++ chunk).length
    · rw [if_pos h2] at h
      by_cases h3 : (s.buffer ++ chunk).getD 0 0 = 0x49 ∧
          (s.buffer ++ chunk).getD 1 0 = 0x44 ∧ (s.buffer ++ chunk).getD 2 0 = 0x33
      · rw [if_pos h3] at h
        by_cases h4 : MAX_ID3V2_TAG_SIZE < synchsafeTotal (s.buffer ++ chunk)
        · rw [if_pos h4] at h; cases h
        · rw [if_neg h4] at h
          by_cases h5 : synchsafeTotal (s.buffer ++ chunk) ≤ (s.buffer ++ chunk).length
          · rw [if_pos h5] at h
            rw [streamingPhase_eq h]
            exact List.drop_sublist _ _
          · rw [if_neg h5] at h
            injection h with ha hb
            subst ha; subst hb
            simp
      · rw [if_neg h3] at h
        rw [streamingPhase_eq h]
    · rw [if_neg h2] at h
      by_cases h6 : s.headerStripped = true
      · rw [if_pos h6] at h
        rw [streamingPhase_eq h]
      · rw [if_neg h6] at h
        injection h with ha hb
        subst ha; subst hb
        simp

/-- Accumulated over any chunk sequence: everything emitted so far followed by
the final buffer is a sublist of the initial buffer plus all input bytes. -/
theorem runChunks_sub {chunks : List Buf} :
    ∀ {s : StripState} {em : Buf} {sf : StripState},
      runChunks s chunks = .ok (em, sf) →
      List.Sublist (em ++ sf.buffer) (s.buffer ++ chunks.flatten) := by
  induction chunks with
  | nil =>
    intro s em sf h
    injection h with h'
    injection h' with ha hb
    subst ha; subst hb
    simp
  | cons c cs ih =>
    intro s em sf h
    unfold runChunks at h
    split at h
    next e ht => cases h
    next e1 s1 ht =>
      split at h
      next e hr => cases h
      next rest s2 hr =>
        injection h with h'
        injection h' with ha hb
        subst ha; subst hb
        have A : List.Sublist (rest ++ s2.buffer) (s1.buffer ++ cs.flatten) := ih hr
        have B : List.Sublist (e1 ++ s1.buffer) (s.buffer ++ c) := transformStep_sub ht
        have C : List.Sublist (e1 ++ (rest ++ s2.buffer))
            (e1 ++ (s1.buffer ++ cs.flatten)) := A.append_left e1
        have D : List.Sublist ((e1 ++ s1.buffer) ++ cs.flatten)
            ((s.buffer ++ c) ++ cs.flatten) := B.append_right cs.flatten
        have E : List.Sublist (e1 ++ (s1.buffer ++ cs.flatten))
            (s.buffer ++ (c ++ cs.flatten)) := by
          rw [← List.append_assoc, ← List.append_assoc]
          exact D
        rw [List.flatten_cons, List.append_assoc]
        exact C.trans E

/-- Whatever the flush handler emits is a sublist of the buffered bytes. -/
theorem flushEmit_sub (isLast : Bool) (s : StripState) :
    List.Sublist (flushEmit isLast s) s.buffer := by
  unfold flushEmit
  cases isLast with
  | true => simp
  | false =>
    simp only [Bool.false_eq_true, if_false]
    by_cases ht : hasTrailingTag s.buffer
    · rw [if_pos ht]
      by_cases hf : 0 < (findCompleteFrames (s.buffer.take (s.buffer.length - 128))).1.length
      · rw [if_pos hf]
        exact ((findCompleteFrames_fst_sub _).trans (List.take_sublist _ _))
      · rw [if_neg hf]
        exact List.take_sublist _ _
    · rw [if_neg ht]
      by_cases hf : 0 < (findCompleteFrames s.buffer).1.length
      · rw [if_pos hf]
        exact findCompleteFrames_fst_sub _
      · rw [if_neg hf]

/-- Counterexample to C3 as stated: in this run no ID3v2 tag is ever stripped
(the declared tag never completes) and no ID3v1 `TAG` range exists, so the
claim requires the emitted bytes to equal the input; but the flush of this
non-last segment emits only up to the end of the last complete frame,
dropping the trailing junk byte `0x11` — a byte outside any recognized tag
range. -/
theorem claim_c3_cex :
    runStripper false false [c3chunk] = .ok (c3chunk.take 106) ∧
      c3chunk.take 106 ≠ c3chunk := by
  exact ⟨by set_option maxRecDepth 40000 in decide, by decide⟩

/-- C3 amended: the concatenation of all bytes a stripper emits across
transform and flush is a sublist (order-preserving selection, no byte
duplicated or reordered) of the concatenation of its input chunks; besides
recognized tag ranges, the only bytes ever dropped are trailing bytes of the
final buffer at flush of a non-last segment. -/
theorem claim_c3_amended (isFirst isLast : Bool) (chunks : List Buf) (out : Buf)
    (h : runStripper isFirst isLast chunks = .ok out) :
    List.Sublist out chunks.flatten := by
  unfold runStripper at h
  split at h
  next e hr => cases h
  next em s hr =>
    injection h with h'
    subst h'
    have A : List.Sublist (em ++ s.buffer) chunks.flatten := by
      simpa [initState] using runChunks_sub hr
    exact ((flushEmit_sub isLast s).append_left em).trans A

/-- Witness for C3 amended at the `c3chunk` run. -/
theorem claim_c3_amended_w :
    List.Sublist (c3chunk.take 106) ([c3chunk] : List Buf).flatten :=
  claim_c3_amended false false [c3chunk] (c3chunk.take 106)
    (by set_option maxRecDepth 40000 in decide)

set_option maxRecDepth 100000 in
/-- Counterexample to C4 as stated: flushing a non-last stripper whose
buffered bytes end in a `TAG` block does not remove exactly those 128 bytes —
after the tag is stripped, the flush emits only the complete frames of what
remains, so the junk byte before the tag is dropped as well. -/
theorem claim_c4_cex :
    flushEmit false ⟨true, c4buf⟩ ≠ c4buf.take (c4buf.length - 128) := by
  decide

/-- C4 amended: with `isLast = true` the flush emits the buffered bytes
verbatim (preserving any trailing ID3v1 tag); with `isLast = false`, when the
last 128 buffered bytes begin with the `TAG` magic, those 128 bytes are
removed and the flush emits a prefix of the remaining bytes (the complete
frames found there, or all of them when none) — so the tag is stripped only
from non-last segments, and further trailing bytes may be dropped with it. -/
theorem claim_c4_amended :
    (∀ s : StripState, flushEmit true s = s.buffer) ∧
    (∀ s : StripState, hasTrailingTag s.buffer →
      ∃ n, flushEmit false s = (s.buffer.take (s.buffer.length - 128)).take n) := by
  constructor
  · intro s; rfl
  · intro s ht
    unfold flushEmit
    simp only [Bool.false_eq_true, if_false]
    rw [if_pos ht]
    by_cases hf : 0 < (findCompleteFrames (s.buffer.take (s.buffer.length - 128))).1.length
    · rw [if_pos hf]
      exact ⟨framesLoop (s.buffer.take (s.buffer.length - 128))
        ((s.buffer.take (s.buffer.length - 128)).length + 1) 0 0,
        findCompleteFrames_fst _⟩
    · rw [if_neg hf]
      exact ⟨(s.buffer.take (s.buffer.length - 128)).length,
        (List.take_length _).symm⟩

theorem collectWarnings_shape {inputs : List (Option Buf)} :
    ∀ w ∈ collectWarnings inputs,
      (∃ k, w = .readFailure k) ∨ (∃ k, w = .noFrame k) := by
  intro w hw
  simp only [collectWarnings, List.mem_flatMap, List.mem_range] at hw
  obtain ⟨k, -, hk⟩ := hw
  split at hk
  · simp at hk
    exact Or.inl ⟨k, hk⟩
  · split at hk
    · simp at hk
      exact Or.inr ⟨k, hk⟩
    · simp at hk

theorem sample_mem_block {vp : List AudioParams} {j i A B : Nat} :
    Warning.sampleRateMismatch i A B ∈ mismatchBlock vp j ↔
      (i = j + 1 ∧ A = (vp.getD 0 invalidParams).sampleRate ∧
        B = (vp.getD (j + 1) invalidParams).sampleRate ∧
        (vp.getD (j + 1) invalidParams).sampleRate ≠
          (vp.getD 0 invalidParams).sampleRate) := by
  simp only [mismatchBlock]
  split_ifs with h1 h2 h3 <;> simp_all

theorem bitrate_mem_block {vp : List AudioParams} {j i A B : Nat} :
    Warning.bitrateDiff i A B ∈ mismatchBlock vp j ↔
      (i = j + 1 ∧ A = (vp.getD 0 invalidParams).bitrate ∧
        B = (vp.getD (j + 1) invalidParams).bitrate ∧
        64 < (((vp.getD (j + 1) invalidParams).bitrate : Int) -
          ((vp.getD 0 invalidParams).bitrate : Int)).natAbs) := by
  simp only [mismatchBlock]
  split_ifs with h1 h2 h3 <;> simp_all

theorem version_mem_block {vp : List AudioParams} {j i : Nat} :
    Warning.versionLayerMismatch i ∈ mismatchBlock vp j ↔
      (i = j + 1 ∧
        ((vp.getD (j + 1) invalidParams).version ≠
            (vp.getD 0 invalidParams).version ∨
          (vp.getD (j + 1) invalidParams).layer ≠
            (vp.getD 0 invalidParams).layer)) := by
  simp only [mismatchBlock]
  split_ifs with h1 h2 h3 <;> simp_all

theorem mem_mismatch_sample {vp : List AudioParams} {i : Nat}
    (hi : 0 < i) (hvp : i < vp.length) :
    (Warning.sampleRateMismatch i (vp.getD 0 invalidParams).sampleRate
        (vp.getD i invalidParams).sampleRate ∈ mismatchWarnings vp) ↔
      (vp.getD i invalidParams).sampleRate ≠ (vp.getD 0 invalidParams).sampleRate := by
  have hij : i - 1 + 1 = i := by omega
  unfold mismatchWarnings
  rw [if_pos (by omega : 1 < vp.length)]
  simp only [List.mem_flatMap, List.mem_range]
  constructor
  · rintro ⟨j, -, hmem⟩
    obtain ⟨hj, -, -, hcond⟩ := sample_mem_block.mp hmem
    rw [← hj] at hcond
    exact hcond
  · intro hne
    refine ⟨i - 1, by omega, sample_mem_block.mpr ⟨by omega, rfl, ?_, ?_⟩⟩
    · rw [hij]
    · rw [hij]; exact hne

theorem mem_mismatch_bitrate {vp : List AudioParams} {i : Nat}
    (hi : 0 < i) (hvp : i < vp.length) :
    (Warning.bitrateDiff i (vp.getD 0 invalidParams).bitrate
        (vp.getD i invalidParams).bitrate ∈ mismatchWarnings vp) ↔
      64 < (((vp.getD i invalidParams).bitrate : Int) -
        ((vp.getD 0 invalidParams).bitrate : Int)).natAbs := by
  have hij : i - 1 + 1 = i := by omega
  unfold mismatchWarnings
  rw [if_pos (by omega : 1 < vp.length)]
  simp only [List.mem_flatMap, List.mem_range]
  constructor
  · rintro ⟨j, -, hmem⟩
    obtain ⟨hj, -, -, hcond⟩ := bitrate_mem_block.mp hmem
    rw [← hj] at hcond
    exact hcond
  · intro hgt
    refine ⟨i - 1, by omega, bitrate_mem_block.mpr ⟨by omega, rfl, ?_, ?_⟩⟩
    · rw [hij]
    · rw [hij]; exact hgt

theorem mem_mismatch_version {vp : List AudioParams} {i : Nat}
    (hi : 0 < i) (hvp : i < vp.length) :
    (Warning.versionLayerMismatch i ∈ mismatchWarnings vp) ↔
      ((vp.getD i invalidParams).version ≠ (vp.getD 0 invalidParams).version ∨
        (vp.getD i invalidParams).layer ≠ (vp.getD 0 invalidParams).layer) := by
  have hij : i - 1 + 1 = i := by omega
  unfold mismatchWarnings
  rw [if_pos (by omega : 1 < vp.length)]
  simp only [List.mem_flatMap, List.mem_range]
  constructor
  · rintro ⟨j, -, hmem⟩
    obtain ⟨hj, hcond⟩ := version_mem_block.mp hmem
    rw [← hj] at hcond
    exact hcond
  · intro hne
    refine ⟨i - 1, by omega, version_mem_block.mpr ⟨by omega, ?_⟩⟩
    rw [hij]; exact hne

theorem not_collect_sample {inputs : List (Option Buf)} {i A B : Nat} :
    Warning.sampleRateMismatch i A B ∉ collectWarnings inputs := by
  intro h
  rcases collectWarnings_shape _ h with ⟨k, hk⟩ | ⟨k, hk⟩ <;> cases hk

theorem not_collect_bitrate {inputs : List (Option Buf)} {i A B : Nat} :
    Warning.bitrateDiff i A B ∉ collectWarnings inputs := by
  intro h
  rcases collectWarnings_shape _ h with ⟨k, hk⟩ | ⟨k, hk⟩ <;> cases hk

theorem not_collect_version {inputs : List (Option Buf)} {i : Nat} :
    Warning.versionLayerMismatch i ∉ collectWarnings inputs := by
  intro h
  rcases collectWarnings_shape _ h with ⟨k, hk⟩ | ⟨k, hk⟩ <;> cases hk

/-- C7: the validator returns no warnings for fewer than two inputs; with at
least two, for every valid parameter record after the first valid one
(position `i ≥ 1` of `validRecords`), the warning list contains the
sample-rate mismatch warning exactly when the sample rates differ, the
bitrate warning exactly when the absolute bitrate difference exceeds
64 kbps, and the version/layer warning exactly when version or layer
differ from the first valid record's. -/
theorem claim_c7_validator :
    (∀ inputs : List (Option Buf), inputs.length < 2 →
        validateAudioCompatibility inputs = []) ∧
    (∀ (inputs : List (Option Buf)) (i : Nat),
      2 ≤ inputs.length → 0 < i → i < (validRecords inputs).length →
      ((Warning.sampleRateMismatch i
          ((validRecords inputs).getD 0 invalidParams).sampleRate
          ((validRecords inputs).getD i invalidParams).sampleRate ∈
            validateAudioCompatibility inputs) ↔
        ((validRecords inputs).getD i invalidParams).sampleRate ≠
          ((validRecords inputs).getD 0 invalidParams).sampleRate) ∧
      ((Warning.bitrateDiff i
          ((validRecords inputs).getD 0 invalidParams).bitrate
          ((validRecords inputs).getD i invalidParams).bitrate ∈
            validateAudioCompatibility inputs) ↔
        64 < ((((validRecords inputs).getD i invalidParams).bitrate : Int) -
          (((validRecords inputs).getD 0 invalidParams).bitrate : Int)).natAbs) ∧
      ((Warning.versionLayerMismatch i ∈ validateAudioCompatibility inputs) ↔
        (((validRecords inputs).getD i invalidParams).version ≠
            ((validRecords inputs).getD 0 invalidParams).version ∨
          ((validRecords inputs).getD i invalidParams).layer ≠
            ((validRecords inputs).getD 0 invalidParams).layer))) := by
  constructor
  · intro inputs h
    unfold validateAudioCompatibility
    rw [if_pos h]
  · intro inputs i hlen hi hvp
    have hnot : ¬ inputs.length < 2 := by omega
    unfold validateAudioCompatibility
    rw [if_neg hnot]
    refine ⟨?_, ?_, ?_⟩
    · rw [List.mem_append]
      constructor
      · rintro (h | h)
        · exact absurd h not_collect_sample
        · exact (mem_mismatch_sample hi hvp).mp h
      · intro h
        exact Or.inr ((mem_mismatch_sample hi hvp).mpr h)
    · rw [List.mem_append]
      constructor
      · rintro (h | h)
        · exact absurd h not_collect_bitrate
        · exact (mem_mismatch_bitrate hi hvp).mp h
      · intro h
        exact Or.inr ((mem_mismatch_bitrate hi hvp).mpr h)
    · rw [List.mem_append]
      constructor
      · rintro (h | h)
        · exact absurd h not_collect_version
        · exact (mem_mismatch_version hi hvp).mp h
      · intro h
        exact Or.inr ((mem_mismatch_version hi hvp).mpr h)

/-- Witness for C7 at `c7inputs` (differing sample rates, equal bitrates,
equal version/layer). -/
theorem claim_c7_validator_w :
    ((Warning.sampleRateMismatch 1
        ((validRecords c7inputs).getD 0 invalidParams).sampleRate
        ((validRecords c7inputs).getD 1 invalidParams).sampleRate ∈
          validateAudioCompatibility c7inputs) ↔
      ((validRecords c7inputs).getD 1 invalidParams).sampleRate ≠
        ((validRecords c7inputs).getD 0 invalidParams).sampleRate) ∧
    ((Warning.bitrateDiff 1
        ((validRecords c7inputs).getD 0 invalidParams).bitrate
        ((validRecords c7inputs).getD 1 invalidParams).bitrate ∈
          validateAudioCompatibility c7inputs) ↔
      64 < ((((validRecords c7inputs).getD 1 invalidParams).bitrate : Int) -
        (((validRecords c7inputs).getD 0 invalidParams).bitrate : Int)).natAbs) ∧
    ((Warning.versionLayerMismatch 1 ∈ validateAudioCompatibility c7inputs) ↔
      (((validRecords c7inputs).getD 1 invalidParams).version ≠
          ((validRecords c7inputs).getD 0 invalidParams).version ∨
        ((validRecords c7inputs).getD 1 invalidParams).layer ≠
          ((validRecords c7inputs).getD 0 invalidParams).layer)) :=
  claim_c7_validator.2 c7inputs 1 (by decide) (by decide) (by decide)

set_option maxRecDepth 100000 in
/-- Witness for C4 amended at `c4wbuf`. -/
theorem claim_c4_amended_w :
    flushEmit true ⟨true, c4wbuf⟩ = c4wbuf ∧
      ∃ n, flushEmit false ⟨true, c4wbuf⟩ =
        (c4wbuf.take (c4wbuf.length - 128)).take n :=
  ⟨claim_c4_amended.1 ⟨true, c4wbuf⟩,
   claim_c4_amended.2 ⟨true, c4wbuf⟩ (by decide)⟩

end AudioDataTransformer
